import Mathlib

/-!
Verification of the subscription store, plugin registry, dispatch and fan-out
logic of the iotd bot (`iotd.py`, `plugins/bigpanda.py`, `plugins/kjilat.py`).

The subscription store is a TOML file mapping a user id (stored as its decimal
string; the embedding identifies the key with the integer, since `str` is
injective on ints and every key written by the code is `str(user)`) to a table
holding an optional `name` string and a `subscriptions` list of plugin-name
strings.  A missing `subscriptions` key and an empty list are observationally
identical to every operation in the code (`.get("subscriptions", [])`
everywhere), so the embedding represents both as `[]`.

Python's `list(set(l))` produces a duplicate-free list holding exactly the
elements of `l` in an unspecified order; the embedding uses `List.dedup` as its
deterministic representative, and observable claims are stated at the level of
membership, which is order-independent.
-/

/-- Exceptions the embedded code can raise. `tomlDecodeError` is what
`toml.loads` raises on unparseable input; `attributeError` is Python's
AttributeError (here: calling `.get` on a `list`). -/
inductive PyErr where
  | tomlDecodeError
  | attributeError
deriving DecidableEq, Repr

/-- One user's table in `subscriptions.toml`: the optional `name` key and the
`subscriptions` list (absent key modelled as `[]`, see module docstring). -/
structure UserRecord where
  name : Option String
  subscriptions : List String
deriving DecidableEq, Repr

/-- The parsed content of `subscriptions.toml`: an insertion-ordered mapping
from user id to record, as an association list (Python dicts preserve
insertion order, which `toml.dumps` serialises). -/
abbrev Store := List (Int × UserRecord)

/-- State of the `subscriptions.toml` file on disk: absent, present but
unparseable by `toml.loads`, or present and parsed to a `Store`. -/
inductive FileState where
  | missing
  | corrupt
  | parsed (s : Store)
deriving DecidableEq, Repr

/-- The read-or-default prefix shared by all four store functions:
`data = {}` / early `return []` when the file is missing, `toml.loads`
(which raises on corrupt content) when it exists. -/
def FileState.load : FileState → Except PyErr Store
  | .missing => .ok []
  | .corrupt => .error .tomlDecodeError
  | .parsed s => .ok s

/-- Dictionary lookup `data[user]` / `user in data` on the parsed store. -/
def findUser : Store → Int → Option UserRecord
  | [], _ => none
  | e :: s, u => if e.1 = u then some e.2 else findUser s u

/-- Dictionary assignment `data[user] = r`: replaces the value in place if the
key exists, otherwise appends the new key at the end (Python dict semantics). -/
def setUser : Store → Int → UserRecord → Store
  | [], u, r => [(u, r)]
  | e :: s, u, r => if e.1 = u then (u, r) :: s else e :: setUser s u r

/-- Dictionary deletion `del data[user]`: drops the entry with that key. -/
def delUser : Store → Int → Store
  | [], _ => []
  | e :: s, u => if e.1 = u then delUser s u else e :: delUser s u

/-- The key list `data.keys()`. -/
def storeKeys (s : Store) : List Int :=
  s.map Prod.fst

/-- Body of `subscriptions(user)` after the file has been read:
`config[user].get("subscriptions", [])`, or `[]` when `user not in config`. -/
def subsOf (s : Store) (u : Int) : List String :=
  match findUser s u with
  | none => []
  | some r => r.subscriptions

/-- The function `subscriptions(user)` of iotd.py: missing file gives `[]`,
otherwise the file is parsed (raising on corrupt content) and the user's
subscription list is returned. -/
def subscriptions (fs : FileState) (u : Int) : Except PyErr (List String) :=
  match fs.load with
  | .error e => .error e
  | .ok s => .ok (subsOf s u)

/-- Body of `subscriber(plugin_name)` after the file has been read: the list
comprehension over `users.items()` keeping the users subscribed to the plugin,
or every user when `plugin_name is None`. -/
def subscriberS (s : Store) (p? : Option String) : List Int :=
  storeKeys (s.filter fun e =>
    match p? with
    | none => true
    | some p => decide (p ∈ e.2.subscriptions))

/-- The function `subscriber(plugin_name)` of iotd.py: missing file gives `[]`,
otherwise the file is parsed (raising on corrupt content). -/
def subscriber (fs : FileState) (p? : Option String) : Except PyErr (List Int) :=
  match fs.load with
  | .error e => .error e
  | .ok s => .ok (subscriberS s p?)

/-- Store-level body of `subscribe(user, plugin_name, name)`: create the record
as `{}` if absent, set `subscriptions` to
`list(set(old + [plugin_name]))` (embedded as `List.dedup`, see module
docstring), and overwrite `name` only when one is given. -/
def subscribeS (s : Store) (u : Int) (p : String) (n : Option String) : Store :=
  let r0 := (findUser s u).getD ⟨none, []⟩
  let r1 : UserRecord :=
    ⟨match n with | some nm => some nm | none => r0.name,
     (r0.subscriptions ++ [p]).dedup⟩
  setUser s u r1

/-- The function `subscribe(user, plugin_name, name)` of iotd.py, including the
file read (`toml.loads` raises on corrupt content) and the final rewrite. -/
def subscribe (fs : FileState) (u : Int) (p : String) (n : Option String) :
    Except PyErr FileState :=
  match fs.load with
  | .error e => .error e
  | .ok s => .ok (FileState.parsed (subscribeS s u p n))

/-- Store-level body of `unsubscribe(user, plugin_name)`.  When the user is
unknown the code executes `data[user] = []` and then unconditionally calls
`data[user].get("subscriptions", [])` on that list, which raises
AttributeError.  When the user is known, `.remove` deletes the first
occurrence of `plugin_name` (embedded as `List.erase`), and the record is
deleted entirely when the remaining list is empty. -/
def unsubscribeS (s : Store) (u : Int) (p : String) : Except PyErr Store :=
  match findUser s u with
  | none => .error .attributeError
  | some r =>
    let subs := if p ∈ r.subscriptions then r.subscriptions.erase p
                else r.subscriptions
    if subs = [] then .ok (delUser s u)
    else .ok (setUser s u ⟨r.name, subs⟩)

/-- The function `unsubscribe(user, plugin_name)` of iotd.py, including the
file read and the final rewrite. -/
def unsubscribe (fs : FileState) (u : Int) (p : String) :
    Except PyErr FileState :=
  match fs.load with
  | .error e => .error e
  | .ok s =>
    match unsubscribeS s u p with
    | .error e => .error e
    | .ok s' => .ok (FileState.parsed s')

/-- Store states reachable from the empty store through the two mutating
operations (an unsubscribe step contributes only when it returns normally). -/
inductive ReachableStore : Store → Prop where
  | empty : ReachableStore []
  | step_subscribe (s : Store) (u : Int) (p : String) (n : Option String) :
      ReachableStore s → ReachableStore (subscribeS s u p n)
  | step_unsubscribe (s s' : Store) (u : Int) (p : String) :
      ReachableStore s → unsubscribeS s u p = Except.ok s' → ReachableStore s'

/-- A loaded candidate plugin module, by its attribute surface: `HOUR` and
`MINUTE` as declared or absent (`getattr`/`hasattr` probing), whether a `run`
attribute is present, and the optional `NAME`. -/
structure Plugin where
  HOUR : Option Int
  MINUTE : Option Int
  hasRun : Bool
  NAME : Option String
deriving DecidableEq, Repr

/-- The dict comprehension of `Bot.load_plugins`: among the loaded candidate
modules, keep exactly those for which `hasattr(plugin, "HOUR") and
hasattr(plugin, "MINUTE") and hasattr(plugin, "run")` holds. -/
def load_plugins (candidates : List (String × Plugin)) : List (String × Plugin) :=
  candidates.filter fun e => e.2.HOUR.isSome && e.2.MINUTE.isSome && e.2.hasRun

/-- The method `Bot.plugin_hour`: `getattr(plugin, "HOUR", 0)`. -/
def plugin_hour (p : Plugin) : Int :=
  p.HOUR.getD 0

/-- The method `Bot.plugin_minute`: `getattr(plugin, "MINUTE", 0)`. -/
def plugin_minute (p : Plugin) : Int :=
  p.MINUTE.getD 0

/-- The method `Bot.schedule_plugin_messages`: one daily job per registered
plugin, named after the plugin and firing at its `plugin_hour`/`plugin_minute`
wall-clock time. -/
def schedule_plugin_messages (plugins : List (String × Plugin)) :
    List (String × Int × Int) :=
  plugins.map fun e => (e.1, plugin_hour e.2, plugin_minute e.2)

/-- Outcome of one `Bot.run_plugin_named` call.  `notFound` carries the
`logging.error` message of the unregistered branch, which neither reads the
subscriber store nor invokes any plugin and returns normally; `ran` carries
the fresh subscriber list the registered plugin's `run` was invoked with (the
secrets read and the side effects inside `run` are outside the dispatch
logic); `raised` propagates an exception from the subscriber-store read. -/
inductive FireOutcome where
  | notFound (logged : String)
  | ran (subscribers : List Int)
  | raised (e : PyErr)
deriving DecidableEq, Repr

/-- The method `Bot.run_plugin_named(plugin_name)`: look the name up among the
registered plugin keys; if present, resolve `subscriber(plugin_name)` freshly
from the store and invoke the plugin with it; otherwise log
`"Running (not found): ..."` and return. The store file is never written. -/
def run_plugin_named (plugins : List String) (fs : FileState) (name : String) :
    FireOutcome :=
  if name ∈ plugins then
    match subscriber fs (some name) with
    | .ok subs => .ran subs
    | .error e => .raised e
  else
    .notFound ("Running (not found): " ++ name)

/-- Result of a fan-out loop: the recipient ids a send was attempted for (in
order), and one `logging.error` entry `(chat_id, error)` per failed send. -/
structure FanoutResult where
  attempted : List Int
  errors : List (Int × String)
deriving DecidableEq, Repr

/-- The per-recipient delivery loop, identical in `Bot.psa` (iotd.py),
`run` of plugins/bigpanda.py and `run` of plugins/kjilat.py:
`for chat_id in chat_ids: try: send(chat_id) except Exception as e:
logging.error(f"... for chat_id")`.  `send` is the transport call, which
either returns or raises the given error message. -/
def fanout (send : Int → Except String Unit) : List Int → FanoutResult
  | [] => ⟨[], []⟩
  | c :: rest =>
    let r := fanout send rest
    match send c with
    | .ok _ => ⟨c :: r.attempted, r.errors⟩
    | .error e => ⟨c :: r.attempted, (c, e) :: r.errors⟩

/-- A candidate plugin module that defines `MINUTE` and `run` but no `HOUR`
(concrete input for the registry claims). -/
def noHourPlugin : Plugin :=
  ⟨none, some 30, true, none⟩

/-- A transport whose send raises for recipient 2 and succeeds for everyone
else (concrete input for the fan-out claims). -/
def failingSend : Int → Except String Unit :=
  fun c => if c = 2 then Except.error "boom" else Except.ok ()

example : subscribeS [] 42 "panda" none = [(42, ⟨none, ["panda"]⟩)] := by decide
example : unsubscribeS [(42, ⟨none, ["panda"]⟩)] 42 "panda" = .ok [] := rfl
example : unsubscribeS [] 42 "panda" = .error .attributeError := rfl
example : ([1, 2, 1] : List Nat).dedup = [2, 1] := by decide

/-! Helper lemmas about the dictionary operations. -/

lemma findUser_setUser (s : Store) (u : Int) (r : UserRecord) :
    findUser (setUser s u r) u = some r := by
  induction s with
  | nil => simp [findUser, setUser]
  | cons e s ih =>
    by_cases h : e.1 = u
    · simp [findUser, setUser, h]
    · simp [findUser, setUser, h, ih]

lemma findUser_setUser_ne (s : Store) (u v : Int) (r : UserRecord)
    (hvu : v ≠ u) : findUser (setUser s u r) v = findUser s v := by
  induction s with
  | nil =>
    simp only [setUser, findUser]
    rw [if_neg (fun hc : u = v => hvu hc.symm)]
  | cons e s ih =>
    by_cases h : e.1 = u
    · simp only [setUser, if_pos h, findUser]
      rw [if_neg (fun hc : u = v => hvu hc.symm),
        if_neg (fun hc : e.1 = v => hvu (hc.symm.trans h))]
    · simp only [setUser, if_neg h, findUser]
      by_cases hv : e.1 = v
      · rw [if_pos hv, if_pos hv]
      · rw [if_neg hv, if_neg hv]
        exact ih

lemma setUser_setUser (s : Store) (u : Int) (r r' : UserRecord) :
    setUser (setUser s u r) u r' = setUser s u r' := by
  induction s with
  | nil => simp [setUser]
  | cons e s ih =>
    by_cases h : e.1 = u
    · simp [setUser, h]
    · simp [setUser, h, ih]

lemma storeKeys_cons (e : Int × UserRecord) (s : Store) :
    storeKeys (e :: s) = e.1 :: storeKeys s := rfl

lemma findUser_delUser (s : Store) (u : Int) :
    findUser (delUser s u) u = none := by
  induction s with
  | nil => rfl
  | cons e s ih =>
    by_cases h : e.1 = u
    · simpa only [delUser, if_pos h] using ih
    · simp only [delUser, if_neg h, findUser, ih]

lemma findUser_delUser_ne (s : Store) (u v : Int) (hvu : v ≠ u) :
    findUser (delUser s u) v = findUser s v := by
  induction s with
  | nil => rfl
  | cons e s ih =>
    by_cases h : e.1 = u
    · have he : ¬ e.1 = v := fun hc => hvu (hc.symm.trans h)
      simp only [delUser, if_pos h, findUser, if_neg he]
      exact ih
    · simp only [delUser, if_neg h, findUser]
      by_cases hv : e.1 = v
      · rw [if_pos hv, if_pos hv]
      · rw [if_neg hv, if_neg hv]
        exact ih

lemma mem_storeKeys_delUser (s : Store) (u v : Int) :
    v ∈ storeKeys (delUser s u) ↔ v ∈ storeKeys s ∧ v ≠ u := by
  induction s with
  | nil => simp [delUser, storeKeys]
  | cons e s ih =>
    by_cases h : e.1 = u
    · subst h
      rw [show delUser (e :: s) e.1 = delUser s e.1 by simp [delUser], ih,
        storeKeys_cons]
      simp only [List.mem_cons]
      constructor
      · rintro ⟨hm, hne⟩
        exact ⟨Or.inr hm, hne⟩
      · rintro ⟨rfl | hm, hne⟩
        · exact absurd rfl hne
        · exact ⟨hm, hne⟩
    · rw [show delUser (e :: s) u = e :: delUser s u by simp [delUser, h],
        storeKeys_cons, storeKeys_cons]
      simp only [List.mem_cons, ih]
      constructor
      · rintro (rfl | ⟨hm, hne⟩)
        · exact ⟨Or.inl rfl, fun hc => h hc⟩
        · exact ⟨Or.inr hm, hne⟩
      · rintro ⟨rfl | hm, hne⟩
        · exact Or.inl rfl
        · exact Or.inr ⟨hm, hne⟩

lemma mem_storeKeys_setUser (s : Store) (u v : Int) (r : UserRecord) :
    v ∈ storeKeys (setUser s u r) ↔ v ∈ storeKeys s ∨ v = u := by
  induction s with
  | nil => simp [storeKeys, setUser, eq_comm]
  | cons e s ih =>
    by_cases h : e.1 = u
    · subst h
      rw [show setUser (e :: s) e.1 r = (e.1, r) :: s by simp [setUser],
        storeKeys_cons, storeKeys_cons]
      simp only [List.mem_cons]
      tauto
    · rw [show setUser (e :: s) u r = e :: setUser s u r by simp [setUser, h],
        storeKeys_cons, storeKeys_cons]
      simp only [List.mem_cons, ih]
      tauto

lemma findUser_eq_none_iff (s : Store) (u : Int) :
    findUser s u = none ↔ u ∉ storeKeys s := by
  induction s with
  | nil => simp [findUser, storeKeys]
  | cons e s ih =>
    simp only [findUser, storeKeys_cons, List.mem_cons]
    by_cases h : e.1 = u
    · subst h
      simp
    · rw [if_neg h, ih]
      have hne : ¬ u = e.1 := fun hc => h hc.symm
      tauto

lemma findUser_mem (s : Store) (u : Int) (r : UserRecord)
    (h : findUser s u = some r) : (u, r) ∈ s := by
  induction s with
  | nil => simp [findUser] at h
  | cons e s ih =>
    by_cases he : e.1 = u
    · simp only [findUser, if_pos he] at h
      cases h
      subst he
      exact List.mem_cons_self e s
    · simp only [findUser, if_neg he] at h
      exact List.mem_cons_of_mem _ (ih h)

lemma findUser_of_mem_of_nodup (s : Store) (u : Int) (r : UserRecord)
    (hnd : (storeKeys s).Nodup) (h : (u, r) ∈ s) : findUser s u = some r := by
  induction s with
  | nil => simp at h
  | cons e s ih =>
    rw [storeKeys_cons, List.nodup_cons] at hnd
    rcases List.mem_cons.mp h with rfl | hm
    · simp [findUser]
    · have hk : u ∈ storeKeys s :=
        List.mem_map.mpr ⟨(u, r), hm, rfl⟩
      have hne : e.1 ≠ u := fun hc => hnd.1 (hc ▸ hk)
      simp only [findUser, if_neg hne]
      exact ih hnd.2 hm

lemma storeKeys_nodup_setUser (s : Store) (u : Int) (r : UserRecord)
    (hnd : (storeKeys s).Nodup) : (storeKeys (setUser s u r)).Nodup := by
  induction s with
  | nil => simp [storeKeys, setUser]
  | cons e s ih =>
    rw [storeKeys_cons, List.nodup_cons] at hnd
    by_cases h : e.1 = u
    · rw [show setUser (e :: s) u r = (u, r) :: s by simp [setUser, h],
        storeKeys_cons, List.nodup_cons]
      exact ⟨h ▸ hnd.1, hnd.2⟩
    · rw [show setUser (e :: s) u r = e :: setUser s u r by simp [setUser, h],
        storeKeys_cons, List.nodup_cons]
      refine ⟨fun hc => ?_, ih hnd.2⟩
      rcases (mem_storeKeys_setUser s u e.1 r).mp hc with hm | hc'
      · exact hnd.1 hm
      · exact h hc'

lemma storeKeys_nodup_delUser (s : Store) (u : Int)
    (hnd : (storeKeys s).Nodup) : (storeKeys (delUser s u)).Nodup := by
  induction s with
  | nil => simp [storeKeys, delUser]
  | cons e s ih =>
    rw [storeKeys_cons, List.nodup_cons] at hnd
    by_cases h : e.1 = u
    · simpa only [delUser, if_pos h] using ih hnd.2
    · rw [show delUser (e :: s) u = e :: delUser s u by simp [delUser, h],
        storeKeys_cons, List.nodup_cons]
      refine ⟨fun hc => ?_, ih hnd.2⟩
      exact hnd.1 ((mem_storeKeys_delUser s u e.1).mp hc).1

lemma mem_subscriberS_some (s : Store) (u : Int) (p : String) :
    u ∈ subscriberS s (some p) ↔ ∃ r, (u, r) ∈ s ∧ p ∈ r.subscriptions := by
  simp only [subscriberS, storeKeys, List.mem_map, List.mem_filter,
    decide_eq_true_eq]
  constructor
  · rintro ⟨e, ⟨he, hp⟩, rfl⟩
    exact ⟨e.2, he, hp⟩
  · rintro ⟨r, hm, hp⟩
    exact ⟨(u, r), ⟨hm, hp⟩, rfl⟩

lemma mem_subscriberS_none (s : Store) (u : Int) :
    u ∈ subscriberS s none ↔ u ∈ storeKeys s := by
  simp [subscriberS, storeKeys]

/-! Lemmas about `List.dedup`, the embedding of Python's `list(set(...))`. -/

lemma dedup_snoc {α : Type} [DecidableEq α] (l : List α) (p : α) :
    ∃ m, (l ++ [p]).dedup = m ++ [p] ∧ p ∉ m := by
  induction l with
  | nil => exact ⟨[], by simp, by simp⟩
  | cons a l ih =>
    obtain ⟨m, hm, hp⟩ := ih
    by_cases h : a ∈ l ++ [p]
    · exact ⟨m, by rw [List.cons_append, List.dedup_cons_of_mem h, hm], hp⟩
    · refine ⟨a :: m,
        by rw [List.cons_append, List.dedup_cons_of_not_mem h, hm,
          ← List.cons_append], ?_⟩
      intro hc
      rcases List.mem_cons.mp hc with rfl | hc'
      · exact h (by simp)
      · exact hp hc'

lemma dedup_snoc_snoc {α : Type} [DecidableEq α] (m : List α) (p : α)
    (hnd : m.Nodup) (hp : p ∉ m) : ((m ++ [p]) ++ [p]).dedup = m ++ [p] := by
  induction m with
  | nil => simp
  | cons a m ih =>
    rw [List.nodup_cons] at hnd
    have hp1 : ¬ p = a := fun hc => hp (by rw [hc]; exact List.mem_cons_self a m)
    have hp2 : p ∉ m := fun hc => hp (List.mem_cons_of_mem a hc)
    have ha : a ∉ (m ++ [p]) ++ [p] := by
      intro hc
      rcases List.mem_append.mp hc with hc' | hc'
      · rcases List.mem_append.mp hc' with h1 | h1
        · exact hnd.1 h1
        · exact hp1 (List.mem_singleton.mp h1).symm
      · exact hp1 (List.mem_singleton.mp hc').symm
    rw [List.cons_append, List.cons_append, List.dedup_cons_of_not_mem ha,
      ih hnd.2 hp2, ← List.cons_append]

lemma dedup_snoc_idem {α : Type} [DecidableEq α] (l : List α) (p : α) :
    ((l ++ [p]).dedup ++ [p]).dedup = (l ++ [p]).dedup := by
  obtain ⟨m, hm, hp⟩ := dedup_snoc l p
  have hnd : (m ++ [p]).Nodup := hm ▸ List.nodup_dedup (l ++ [p])
  rw [hm]
  exact dedup_snoc_snoc m p (List.Nodup.of_append_left hnd) hp

/-! Structural lemmas about the store operations. -/

lemma subscribeS_idem (s : Store) (u : Int) (p : String) (n : Option String) :
    subscribeS (subscribeS s u p n) u p n = subscribeS s u p n := by
  cases n with
  | none =>
    simp only [subscribeS, findUser_setUser, Option.getD_some, setUser_setUser,
      dedup_snoc_idem]
  | some nm =>
    simp only [subscribeS, findUser_setUser, Option.getD_some, setUser_setUser,
      dedup_snoc_idem]

lemma reachable_keysNodup (s : Store) (h : ReachableStore s) :
    (storeKeys s).Nodup := by
  induction h with
  | empty => simp [storeKeys]
  | step_subscribe s u p n hr ih =>
    exact storeKeys_nodup_setUser _ _ _ ih
  | step_unsubscribe s s' u p hr he ih =>
    cases hfind : findUser s u with
    | none =>
      simp only [unsubscribeS, hfind] at he
      cases he
    | some r =>
      simp only [unsubscribeS, hfind] at he
      by_cases hc :
          (if p ∈ r.subscriptions then r.subscriptions.erase p
           else r.subscriptions) = []
      · rw [if_pos hc] at he
        cases he
        exact storeKeys_nodup_delUser _ _ ih
      · rw [if_neg hc] at he
        cases he
        exact storeKeys_nodup_setUser _ _ _ ih

lemma partition_of_nodup (s : Store) (hnd : (storeKeys s).Nodup)
    (u : Int) (p : String) :
    p ∈ subsOf s u ↔ u ∈ subscriberS s (some p) := by
  rw [mem_subscriberS_some]
  cases hfind : findUser s u with
  | none =>
    simp only [subsOf, hfind]
    constructor
    · intro h
      exact absurd h (List.not_mem_nil p)
    · rintro ⟨r, hm, hp⟩
      have hf := findUser_of_mem_of_nodup s u r hnd hm
      rw [hfind] at hf
      cases hf
  | some r =>
    simp only [subsOf, hfind]
    constructor
    · intro hp
      exact ⟨r, findUser_mem s u r hfind, hp⟩
    · rintro ⟨r', hm, hp⟩
      have hf := findUser_of_mem_of_nodup s u r' hnd hm
      rw [hfind] at hf
      injection hf with hf'
      rw [hf']
      exact hp

lemma fanout_attempted (send : Int → Except String Unit) (ids : List Int) :
    (fanout send ids).attempted = ids := by
  induction ids with
  | nil => rfl
  | cons c rest ih =>
    unfold fanout
    cases send c
    · show (c : Int) :: (fanout send rest).attempted = c :: rest
      rw [ih]
    · show (c : Int) :: (fanout send rest).attempted = c :: rest
      rw [ih]

lemma fanout_errors_mem (send : Int → Except String Unit) (ids : List Int)
    (c : Int) (e : String) (hc : c ∈ ids) (he : send c = Except.error e) :
    (c, e) ∈ (fanout send ids).errors := by
  induction ids with
  | nil => cases hc
  | cons c0 rest ih =>
    unfold fanout
    rcases List.mem_cons.mp hc with rfl | hm
    · rw [he]
      exact List.mem_cons_self _ _
    · cases hs : send c0 with
      | ok v => exact ih hm
      | error e0 => exact List.mem_cons_of_mem _ (ih hm)

/-! The claim theorems. -/

/-- C1: the claim says `unsubscribe(u, p)` is an error-free no-op when `p` is
not in `u`'s subscription set, including when `u` is entirely unknown to the
store.  The code contradicts it: for an unknown user it executes
`data[user] = []` (a list, where the sibling `subscribe` uses the dict `{}`)
and then unconditionally calls `data[user].get("subscriptions", [])` on that
list, raising AttributeError.  This theorem evaluates the code at the failing
input: an empty store and the unknown user 42. -/
theorem unsubscribe_unknown_user_raises :
    unsubscribe FileState.missing 42 "panda"
      = Except.error PyErr.attributeError := rfl

/-- C2 counterexample: a candidate exposing `run` (and even `MINUTE`) but
omitting `HOUR` is not registered, and no job is scheduled for it — refuting
the claim that it would be registered and scheduled at the defaulted hour 0. -/
theorem load_plugins_missing_hour_rejected :
    load_plugins [("mystery", noHourPlugin)] = [] ∧
    schedule_plugin_messages (load_plugins [("mystery", noHourPlugin)]) = [] :=
  ⟨rfl, rfl⟩

/-- C2 (amended): a discovered candidate omitting the firing hour or the
firing minute (or the delivery operation) is rejected, not registered:
exactly the candidates exposing all three of `HOUR`, `MINUTE` and `run` are
registered.  The midnight default of `plugin_hour`/`plugin_minute` therefore
never applies to a registered plugin. -/
theorem load_plugins_mem_iff (c : List (String × Plugin)) (nm : String)
    (p : Plugin) :
    (nm, p) ∈ load_plugins c ↔
      (nm, p) ∈ c ∧ p.HOUR.isSome = true ∧ p.MINUTE.isSome = true ∧
        p.hasRun = true := by
  simp [load_plugins, List.mem_filter, and_assoc]

/-- C3 counterexample: on a store file that exists but is unparseable, both
read operations raise the parse error instead of treating the store as
empty. -/
theorem reads_corrupt_store_raise :
    subscriptions FileState.corrupt 42 = Except.error PyErr.tomlDecodeError ∧
    subscriber FileState.corrupt (some "panda")
      = Except.error PyErr.tomlDecodeError :=
  ⟨rfl, rfl⟩

/-- C3 (amended): the read operations are fail-soft only for the
missing-file case — a missing store file is treated as an empty store and
both reads return without error — while an existing but unparseable file
makes both reads raise the parse error. -/
theorem reads_missing_empty_corrupt_raise (u : Int) (p? : Option String) :
    subscriptions FileState.missing u = Except.ok [] ∧
    subscriber FileState.missing p? = Except.ok [] ∧
    subscriptions FileState.corrupt u = Except.error PyErr.tomlDecodeError ∧
    subscriber FileState.corrupt p? = Except.error PyErr.tomlDecodeError :=
  ⟨rfl, rfl, rfl, rfl⟩

/-- C4: subscribing twice with the same arguments yields the same store state
as subscribing once — the second call returns exactly the state produced by
the first (so in particular the same subscriber set for `u`). -/
theorem subscribe_idem (fs : FileState) (u : Int) (p : String)
    (n : Option String) (fs1 : FileState)
    (h : subscribe fs u p n = Except.ok fs1) :
    subscribe fs1 u p n = Except.ok fs1 := by
  cases fs with
  | corrupt => exact absurd h (by simp [subscribe, FileState.load])
  | missing =>
    simp only [subscribe, FileState.load] at h
    injection h with h'
    rw [← h']
    simp only [subscribe, FileState.load, subscribeS_idem]
  | parsed s =>
    simp only [subscribe, FileState.load] at h
    injection h with h'
    rw [← h']
    simp only [subscribe, FileState.load, subscribeS_idem]

/-- C4 witness: subscribing user 42 to "panda" on the empty store and then
subscribing again reproduces the same store. -/
theorem subscribe_idem_witness :
    subscribe (FileState.parsed [(42, ⟨none, ["panda"]⟩)]) 42 "panda" none
      = Except.ok (FileState.parsed [(42, ⟨none, ["panda"]⟩)]) :=
  subscribe_idem FileState.missing 42 "panda" none
    (FileState.parsed [(42, ⟨none, ["panda"]⟩)]) rfl

/-- C5: on every store state reachable through the subscribe/unsubscribe
operations, a provider is in a user's subscription list exactly when the user
is in the provider's subscriber list. -/
theorem partition_correctness (s : Store) (h : ReachableStore s)
    (u : Int) (p : String) :
    p ∈ subsOf s u ↔ u ∈ subscriberS s (some p) :=
  partition_of_nodup s (reachable_keysNodup s h) u p

/-- C5 witness at the reachable store obtained by subscribing 42 to
"panda". -/
theorem partition_correctness_witness :
    "panda" ∈ subsOf (subscribeS [] 42 "panda" none) 42 ↔
      42 ∈ subscriberS (subscribeS [] 42 "panda" none) (some "panda") :=
  partition_correctness (subscribeS [] 42 "panda" none)
    (ReachableStore.step_subscribe [] 42 "panda" none ReachableStore.empty)
    42 "panda"

/-- C6: when a user's record holds exactly the one provider `p`,
`unsubscribe(u, p)` deletes the record entirely: the call succeeds with the
user removed, `get(u)` is then empty, and `u` is absent from
`subscribersOf(none)`, the set of all known users. -/
theorem unsubscribe_last_deletes_user (s : Store) (u : Int) (p : String)
    (r : UserRecord) (hf : findUser s u = some r)
    (hsub : r.subscriptions = [p]) :
    unsubscribeS s u p = Except.ok (delUser s u) ∧
    subsOf (delUser s u) u = [] ∧
    u ∉ subscriberS (delUser s u) none := by
  refine ⟨?_, ?_, ?_⟩
  · simp [unsubscribeS, hf, hsub]
  · simp [subsOf, findUser_delUser]
  · rw [mem_subscriberS_none]
    intro hc
    exact ((mem_storeKeys_delUser s u u).mp hc).2 rfl

/-- C6 witness: user 42 subscribed only to "panda", then unsubscribed. -/
theorem unsubscribe_last_deletes_user_witness :
    unsubscribeS [(42, ⟨none, ["panda"]⟩)] 42 "panda"
      = Except.ok (delUser [(42, ⟨none, ["panda"]⟩)] 42) ∧
    subsOf (delUser [(42, ⟨none, ["panda"]⟩)] 42) 42 = [] ∧
    42 ∉ subscriberS (delUser [(42, ⟨none, ["panda"]⟩)] 42) none :=
  unsubscribe_last_deletes_user [(42, ⟨none, ["panda"]⟩)] 42 "panda"
    ⟨none, ["panda"]⟩ rfl rfl

/-- C7: the per-recipient delivery loop attempts a send for every id in the
list regardless of failures, and every raising send is logged as an entry
carrying that recipient's id and the underlying error; the loop itself is a
total function, so no exception escapes the fan-out. -/
theorem fanout_isolation (send : Int → Except String Unit) (ids : List Int) :
    (fanout send ids).attempted = ids ∧
    ∀ c ∈ ids, ∀ e, send c = Except.error e →
      (c, e) ∈ (fanout send ids).errors :=
  ⟨fanout_attempted send ids,
   fun c hc e he => fanout_errors_mem send ids c e hc he⟩

/-- C7 witness: recipients 1, 2, 3 with recipient 2's send raising "boom":
all three sends are attempted and the failure is logged against 2. -/
theorem fanout_isolation_witness :
    (fanout failingSend [1, 2, 3]).attempted = [1, 2, 3] ∧
    (2, "boom") ∈ (fanout failingSend [1, 2, 3]).errors :=
  ⟨(fanout_isolation failingSend [1, 2, 3]).1,
   (fanout_isolation failingSend [1, 2, 3]).2 2 (by decide) "boom" rfl⟩

/-- C8: firing an unregistered provider id logs the not-found error and
returns: the outcome is the `notFound` branch, which invokes no delivery
operation and performs no store read (only the registered branch resolves
subscribers), and `run_plugin_named` never writes the store. -/
theorem run_plugin_named_unknown (plugins : List String) (fs : FileState)
    (nm : String) (h : nm ∉ plugins) :
    run_plugin_named plugins fs nm
      = FireOutcome.notFound ("Running (not found): " ++ nm) := by
  simp [run_plugin_named, h]

/-- C8 witness: firing "ghost" with no registered plugins. -/
theorem run_plugin_named_unknown_witness :
    run_plugin_named [] FileState.missing "ghost"
      = FireOutcome.notFound ("Running (not found): " ++ "ghost") :=
  run_plugin_named_unknown [] FileState.missing "ghost" (by simp)

/-- C9: editing one subscriber's record loses no data of unrelated records:
for any other user `v` and every store state, `subscribe(u, p, n)` leaves
`v`'s full record (name and subscription list) unchanged — including when
`u` was unknown and the subscribe creates `u`'s record afresh — and so does
every normally-returning `unsubscribe(u, p)` (when `unsubscribe` raises
instead, iotd.py crashes before its `write_text`, so no store state is
written at all). -/
theorem edit_frame_other_users (s : Store) (u v : Int) (p : String)
    (n : Option String) (hvu : v ≠ u) :
    findUser (subscribeS s u p n) v = findUser s v ∧
    ∀ s', unsubscribeS s u p = Except.ok s' → findUser s' v = findUser s v := by
  constructor
  · exact findUser_setUser_ne s u v _ hvu
  · intro s' hun
    cases hf : findUser s u with
    | none =>
      simp only [unsubscribeS, hf] at hun
      cases hun
    | some r =>
      simp only [unsubscribeS, hf] at hun
      by_cases hc :
          (if p ∈ r.subscriptions then r.subscriptions.erase p
           else r.subscriptions) = []
      · rw [if_pos hc] at hun
        cases hun
        exact findUser_delUser_ne s u v hvu
      · rw [if_neg hc] at hun
        cases hun
        exact findUser_setUser_ne s u v _ hvu

/-- C9 witness: the store holds only user 7; subscribing the fresh user 42
(record created from scratch) leaves user 7's record untouched, and on the
two-user store, unsubscribing 42 from its last plugin leaves user 7's record
untouched as well. -/
theorem edit_frame_other_users_witness :
    findUser (subscribeS [(7, ⟨some "Bob", ["kjilat"]⟩)] 42 "panda" none) 7
      = findUser [(7, ⟨some "Bob", ["kjilat"]⟩)] 7 ∧
    findUser [(7, ⟨some "Bob", ["kjilat"]⟩)] 7
      = findUser [(42, ⟨none, ["panda"]⟩), (7, ⟨some "Bob", ["kjilat"]⟩)] 7 :=
  ⟨(edit_frame_other_users [(7, ⟨some "Bob", ["kjilat"]⟩)]
      42 7 "panda" none (by decide)).1,
   (edit_frame_other_users [(42, ⟨none, ["panda"]⟩), (7, ⟨some "Bob", ["kjilat"]⟩)]
      42 7 "panda" none (by decide)).2 [(7, ⟨some "Bob", ["kjilat"]⟩)] rfl⟩

/-- C10: immediately after any `subscribe(u, p)`, the stored subscription
list for `u` contains no duplicates, even if the previously stored list did:
the written list is `list(set(...))` of the old one. -/
theorem subscribe_subscriptions_nodup (s : Store) (u : Int) (p : String)
    (n : Option String) : (subsOf (subscribeS s u p n) u).Nodup := by
  simp only [subscribeS, subsOf, findUser_setUser]
  exact List.nodup_dedup _
